import Mathlib

/-!
Verification of the dashboard-back analytics engine.

This file gives a shallow embedding of the analytics code of the repository:
the inscriptions (registration) time-bucket aggregator and the legacy variant,
the revenue aggregator and signed-amount normalizer, the dynamic-field
distribution analyzer, the per-event facade over the data loader, and the
org-token decrypt pipeline.  Timestamps are modelled as integers (seconds);
pandas/python floor day differences (`Timedelta.days`) become `Int.fdiv _ 86400`.
Monetary floats are modelled as rationals; a pandas `NaN` produced by
`errors='coerce'` is modelled as `Option.none` and pandas' skipna aggregation
as summing the present values.
-/

/-- Models Python/numpy `round(x, 2)`.  Python rounds half to even; no input
in this development hits an exact half-cent tie, so the tie-breaking choice of
Mathlib's `round` (half up) is immaterial here. -/
def round2 (q : ℚ) : ℚ := (round (q * 100) : ℤ) / 100

/-- ASCII digit test, as used by the regex class `\d` on the data involved. -/
def isDigitC (c : Char) : Bool := '0' ≤ c && c ≤ '9'

/-- Python whitespace test (`\s`, `str.strip`): space, tab, newline, carriage
return, vertical tab, form feed. -/
def isSpaceC (c : Char) : Bool :=
  c = ' ' || c = '\t' || c = '\n' || c = '\r' || c = '\x0b' || c = '\x0c'

/-- Value of a digit string (most significant first). -/
def digitsToNat (cs : List Char) : ℕ :=
  cs.foldl (fun n c => 10 * n + (c.toNat - '0'.toNat)) 0

/-- Parse an unsigned fixed-point literal: digits, optionally followed by `.`
and more digits; at least one digit overall (`float` accepts `"5."` and `".5"`).
Models the fixed-point fragment of `pd.to_numeric` (the amounts of this system
are plain decimal strings; exponent and inf/nan forms are outside the data
model). -/
def parseUnsigned (cs : List Char) : Option ℚ :=
  let intPart := cs.takeWhile isDigitC
  let rest := cs.dropWhile isDigitC
  match rest with
  | [] => if intPart.isEmpty then none else some (digitsToNat intPart : ℚ)
  | '.' :: fr =>
      let frac := fr.takeWhile isDigitC
      let rest2 := fr.dropWhile isDigitC
      if !rest2.isEmpty then none
      else if intPart.isEmpty && frac.isEmpty then none
      else some ((digitsToNat intPart : ℚ) + (digitsToNat frac : ℚ) / (10 ^ frac.length : ℚ))
  | _ => none

/-- Parse a decimal literal with optional sign and surrounding whitespace,
models `pd.to_numeric(s, errors='coerce')` on the strings of this system:
`none` is the coerced `NaN`. -/
def parseDecimal (s : String) : Option ℚ :=
  let cs := ((s.data.dropWhile isSpaceC).reverse.dropWhile isSpaceC).reverse
  match cs with
  | '+' :: rest => parseUnsigned rest
  | '-' :: rest => (parseUnsigned rest).map Neg.neg
  | _ => parseUnsigned cs

/-- `str.replace(',', '.')` on a single-char pattern. -/
def commaToDot (s : String) : String :=
  String.mk (s.data.map (fun c => if c = ',' then '.' else c))

/-- `pd.to_numeric(df['amount'].astype(str).str.replace(',', '.'), errors='coerce')`
applied to one raw amount string (revenue.py line 63). -/
def amountFloat (s : String) : Option ℚ := parseDecimal (commaToDot s)

/-- `np.arange(a, b, -1)` / Python `range(a, b, -1)` over integers: the
descending list `a, a-1, ...` of length `max 0 (a - b)`. -/
def rangeDown (a b : Int) : List Int :=
  (List.range (a - b).toNat).map (fun (k : ℕ) => a - (k : Int))

/-- `np.arange(a, b)` over integers: the ascending list `a, a+1, ...` of
length `max 0 (b - a)`. -/
def arangeUp (a b : Int) : List Int :=
  (List.range (b - a).toNat).map (fun (k : ℕ) => a + (k : Int))

/-- `counts[day]` of `df['dias_antecedencia'].value_counts()`: the number of
records whose lead day equals `d` (0 when `day not in counts`). -/
def countLeads (leads : List Int) (d : Int) : ℕ :=
  (leads.filter (fun x => x = d)).length

/-- The accumulation loop of `_generate_inscriptions_chart_data`
(src/analytics/inscriptions.py lines 66-70): walking the day range, adding
`counts[day]` to the running sum and recording it. -/
def cumCounts (leads : List Int) (acc : ℕ) : List Int → List ℕ
  | [] => []
  | d :: rest => (acc + countLeads leads d) :: cumCounts leads (acc + countLeads leads d) rest

/-- `cumulative[-1] = total_inscriptions` guarded by `len(cumulative) > 0`
(src/analytics/inscriptions.py lines 72-73). -/
def setLast (xs : List ℕ) (v : ℕ) : List ℕ :=
  match xs with
  | [] => []
  | [_] => [v]
  | x :: rest => x :: setLast rest v

/-- `{"remaining_days": ..., "inscriptions": ...}` chart payload. -/
structure InscriptionsChart where
  remaining_days : List Int
  inscriptions : List ℕ
deriving DecidableEq

/-- `InscriptionsAnalytics._generate_inscriptions_chart_data`
(src/analytics/inscriptions.py lines 48-75).  `times` is the `created_at`
column of the inscriptions frame, as timestamps in seconds. -/
def generateInscriptionsChartData (created_at start_date : Int) (times : List Int) :
    InscriptionsChart :=
  if times.isEmpty then { remaining_days := [], inscriptions := [] }
  else
    let leads := times.map (fun t => Int.fdiv (start_date - t) 86400)
    let maxDays := Int.fdiv (start_date - created_at) 86400
    let totalInscriptions := times.length
    let daysRange := rangeDown maxDays (-1)
    let cumulative := cumCounts leads 0 daysRange
    { remaining_days := daysRange, inscriptions := setLast cumulative totalInscriptions }

/-- `EventAnalytics._generate_inscriptions_chart_data` of the legacy module
(src/analytics.py lines 171-212): the day range is cut off at
`min_days = max(0, (start - today).days)` while the event has not started,
and each bucket recounts `len(df[df['dias_antecedencia'] >= days])`. -/
def legacyGenerateInscriptionsChartData (now created_at start_date : Int)
    (times : List Int) : InscriptionsChart :=
  if times.isEmpty then { remaining_days := [], inscriptions := [] }
  else
    let maxDays := Int.fdiv (start_date - created_at) 86400
    let leads := times.map (fun t => Int.fdiv (start_date - t) 86400)
    let minDays : Int :=
      if now < start_date then max 0 (Int.fdiv (start_date - now) 86400) else 0
    let days := rangeDown maxDays (minDays - 1)
    { remaining_days := days,
      inscriptions := days.map (fun d => (leads.filter (fun x => d ≤ x)).length) }

/-- One row of the `transactions` query (amount text, credit flag, timestamp);
`none` models SQL NULL, dropped by `dropna` in `_prepare_transactions_df`. -/
structure RawTx where
  amount : Option String
  credit : Option Int
  transaction_date : Option Int
deriving DecidableEq

/-- A prepared transaction row: `amount_float`, `signed_amount` (with `none`
as NaN), the raw credit flag and the lead day `dias_antecedencia`. -/
structure PrepTx where
  amount_float : Option ℚ
  signed_amount : Option ℚ
  credit : Int
  dias : Int
deriving DecidableEq

/-- `df['credit'].replace({0: -1, 1: 1})`: values other than 0/1 pass through
unchanged. -/
def creditMultiplier (c : Int) : Int := if c = 0 then -1 else if c = 1 then 1 else c

/-- `RevenueAnalytics._prepare_transactions_df` (src/analytics/revenue.py
lines 59-71): drop rows with a missing field, parse the amount (NaN on
failure), apply the sign convention, and compute the lead day from the event
start date. -/
def prepareTransactions (start_date : Int) (txs : List RawTx) : List PrepTx :=
  txs.filterMap (fun t =>
    match t.amount, t.credit, t.transaction_date with
    | some a, some c, some dt =>
        let af := amountFloat a
        some { amount_float := af,
               signed_amount := af.map (fun q => q * (creditMultiplier c : ℚ)),
               credit := c,
               dias := Int.fdiv (start_date - dt) 86400 }
    | _, _, _ => none)

/-- `round(transactions_df['signed_amount'].sum(), 2)` (revenue.py lines
37-38); pandas `sum` skips NaN, i.e. a missing signed amount contributes 0. -/
def calcTotalRevenue (prep : List PrepTx) : ℚ :=
  round2 ((prep.map (fun t => t.signed_amount.getD 0)).sum)

/-- `RevenueAnalytics._calculate_ticket_price` (revenue.py lines 53-57):
mean of `amount_float` over `credit == 1` rows; pandas `mean` skips NaN and
yields NaN (here `none`) when every amount of a non-empty selection is NaN. -/
def calcTicketPrice (prep : List PrepTx) : Option ℚ :=
  let credits := prep.filter (fun t => t.credit = 1)
  if credits.isEmpty then some 0
  else
    let vals := credits.filterMap (fun t => t.amount_float)
    if vals.isEmpty then none
    else some (round2 (vals.sum / (vals.length : ℚ)))

/-- `groupby('dias_antecedencia')['signed_amount'].sum()` looked up at day `d`
with `reindex(..., fill_value=0)`: the sum of present signed amounts of the
records with lead day `d`, 0 when there are none. -/
def dailySum (prep : List PrepTx) (d : Int) : ℚ :=
  ((prep.filter (fun t => t.dias = d)).map (fun t => t.signed_amount.getD 0)).sum

/-- `np.cumsum` with an explicit running total. -/
def cumsumFrom (acc : ℚ) : List ℚ → List ℚ
  | [] => []
  | x :: xs => (acc + x) :: cumsumFrom (acc + x) xs

/-- `np.cumsum`. -/
def cumsum (l : List ℚ) : List ℚ := cumsumFrom 0 l

/-- `{"remaining_days": ..., "revenue": ...}` chart payload. -/
structure RevenueChart where
  remaining_days : List Int
  revenue : List ℚ
deriving DecidableEq

/-- `RevenueAnalytics._generate_revenue_chart_data` (revenue.py lines 40-51):
ascending day range `np.arange(0, max_days + 1)`, per-day sums reindexed with
fill 0, reversed cumulative sum `np.cumsum(daily[::-1])[::-1]`, rounded to 2
decimals only on output. -/
def generateRevenueChartData (created_at start_date : Int) (prep : List PrepTx) :
    RevenueChart :=
  let maxDays := Int.fdiv (start_date - created_at) 86400
  let days := arangeUp 0 (maxDays + 1)
  let daily := days.map (dailySum prep)
  let cumulative := (cumsum daily.reverse).reverse
  { remaining_days := days, revenue := cumulative.map round2 }

/-- Sum of the present signed amounts of the records whose lead day lies in
`[lo, hi]` — the intended meaning of a revenue bucket. -/
def sumInRange (prep : List PrepTx) (lo hi : Int) : ℚ :=
  ((prep.filter (fun t => lo ≤ t.dias ∧ t.dias ≤ hi)).map
    (fun t => t.signed_amount.getD 0)).sum

/-- Suffix sums of a list: entry `i` is the sum of the elements from `i` on.
Specification-side description of the reversed cumulative sum. -/
def suffixSums : List ℚ → List ℚ
  | [] => []
  | x :: xs => (x + xs.sum) :: suffixSums xs

/-- All matches of the regex `(\d+):\s*([^\n]*)` in a character stream, as
`re`/`pandas.str.extractall` finds them: at each position a maximal digit run
must be followed by `:` (backtracking a greedy `\d+` cannot help, because a
shortened run is followed by a digit, never by `:`), `\s*` then eats
whitespace (including newlines) and `[^\n]*` captures up to the end of line;
scanning resumes after the match. -/
def findMatches (l : List Char) : List (String × String) :=
  match l with
  | [] => []
  | c :: rest =>
    if isDigitC c then
      let ds := (c :: rest).takeWhile isDigitC
      match hafter : (c :: rest).dropWhile isDigitC with
      | ':' :: rest2 =>
          let rest3 := rest2.dropWhile isSpaceC
          let val := rest3.takeWhile (fun ch => ch ≠ '\n')
          let rest4 := rest3.dropWhile (fun ch => ch ≠ '\n')
          (String.mk ds, String.mk val) :: findMatches rest4
      | after => findMatches after
    else findMatches rest
termination_by l.length
decreasing_by
  · have h2 := (List.dropWhile_sublist (l := rest) isDigitC).length_le
    have h3 := (List.dropWhile_sublist (l := rest2) isSpaceC).length_le
    have h4 := (List.dropWhile_sublist (l := rest2.dropWhile isSpaceC)
      (fun ch => decide (ch ≠ '\n'))).length_le
    have h5 : (List.dropWhile isDigitC (c :: rest)).length = rest2.length + 1 := by
      rw [hafter]; simp
    simp only [List.dropWhile, *] at h5 ⊢
    simp_all
    omega
  · have h2 := (List.dropWhile_sublist (l := rest) isDigitC).length_le
    rw [← hafter, List.dropWhile_cons]
    simp only [*, if_true]
    simp
    omega
  · simp

/-- Python `str.strip()` of whitespace at both ends. -/
def stripStr (s : String) : String :=
  String.mk ((s.data.dropWhile isSpaceC).reverse.dropWhile isSpaceC).reverse

/-- `serials.str.extractall(r"(\d+):\s*([^\n]*)")` followed by
`.str.strip()` of the captured value, flattened over all registrants
(dynamic_fields.py lines 20-26; the per-registrant index `inscricao_idx` is
computed by the code but never consumed downstream). -/
def explodePairs (serials : List String) : List (String × String) :=
  serials.flatMap (fun s => (findMatches s.data).map (fun p => (p.1, stripStr p.2)))

/-- One row of the `event_dynamic_fields` definition table. -/
structure DynField where
  id : Int
  label : String
deriving DecidableEq

/-- `EventDynamicFields{labels, distribution}`; the distribution is a Python
dict keyed by label, modelled as an insertion-ordered association list. -/
structure EventDynamicFields where
  labels : List String
  distribution : List (String × List (String × ℕ))
deriving DecidableEq

/-- `pd.Series.value_counts().to_dict()`: each distinct value with its
multiplicity.  Entries are kept in first-occurrence order; pandas orders by
frequency, but only the key set and the counts are consumed downstream. -/
def valueCounts (vs : List String) : List (String × ℕ) :=
  vs.foldl (fun acc v =>
    if acc.any (fun p => p.1 = v) then
      acc.map (fun p => if p.1 = v then (p.1, p.2 + 1) else p)
    else acc ++ [(v, 1)]) []

/-- Python dict assignment `d[k] = v`: replace the (unique) existing binding
in place, or append a new one. -/
def insertOrReplace {β : Type} : List (String × β) → String → β → List (String × β)
  | [], k, v => [(k, v)]
  | p :: rest, k, v => if p.1 = k then (k, v) :: rest else p :: insertOrReplace rest k v

/-- Python dict lookup on an association list. -/
def lookupKey {β : Type} : List (String × β) → String → Option β
  | [], _ => none
  | p :: rest, k => if p.1 = k then some p.2 else lookupKey rest k

/-- The per-field value counting of dynamic_fields.py lines 37-42: the
value counts of the answers matched to `fid`, plus the synthetic
`'undefined'` bucket when some of the `total` registrants gave no answer. -/
def fieldCounts (exploded : List (String × String)) (fid : String) (total : ℕ) :
    List (String × ℕ) :=
  let values := (exploded.filter (fun p => p.1 = fid)).map (fun p => p.2)
  let counts := valueCounts values
  if values.length < total then insertOrReplace counts "undefined" (total - values.length)
  else counts

/-- The exploded answer pairs restricted to known field ids
(`exploded[exploded['field_id'].isin(valid_field_ids)]`, lines 28-29). -/
def validExploded (fields : List DynField) (serials : List (Option String)) :
    List (String × String) :=
  (explodePairs (serials.map (fun s => s.getD ""))).filter
    (fun p => (fields.map (fun f => toString f.id)).contains p.1)

/-- The field loop of dynamic_fields.py lines 33-45 restricted to the
distribution dict: a field's counts survive only when
`1 < unique_types ∧ unique_types ≤ 20`. -/
def buildDist (exploded : List (String × String)) (total : ℕ) :
    List DynField → List (String × List (String × ℕ)) → List (String × List (String × ℕ))
  | [], acc => acc
  | f :: rest, acc =>
      let counts := fieldCounts exploded (toString f.id) total
      let acc' :=
        if 1 < counts.length ∧ counts.length ≤ 20 then insertOrReplace acc f.label counts
        else acc
      buildDist exploded total rest acc'

/-- `DynamicFieldsAnalytics.get_dynamic_fields_distribution`
(src/analytics/dynamic_fields.py lines 10-47), with the loader's two record
sets passed in: the field definitions (ordered by id, as queried) and the
serialized answer blob of each registrant (`none` = SQL NULL, `fillna("")`). -/
def getDynamicFieldsDistribution (fields : List DynField) (serials : List (Option String)) :
    EventDynamicFields :=
  if fields.isEmpty then { labels := [], distribution := [] }
  else if serials.isEmpty then { labels := fields.map (fun f => f.label), distribution := [] }
  else
    let exploded := validExploded fields serials
    { labels := fields.map (fun f => f.label),
      distribution := buildDist exploded serials.length fields [] }

/-- One row of the `eventos` table as selected by the loader
(src/database_manager.py lines 69-87). -/
structure EventRow where
  id : Int
  igreja_id : Int
  name : String
  start_date : Int
  created_at : Int
  target_inscriptions : Int
deriving DecidableEq

/-- The record source visible to the analytics facade; `inscriptions` and
`transactions` carry the owning `evento_id`.  Status/cancellation filtering
happens in the SQL upstream and is a precondition of the data, not modelled
here. -/
structure Database where
  events : List EventRow
  inscriptions : List (Int × Int)
  transactions : List (Int × RawTx)
deriving DecidableEq

/-- `DatabaseManager.get_event_by_id`: `SELECT ... FROM eventos e WHERE
e.id = %s`.  Note the query has no `igreja_id` clause, so the loader's
`org_id` plays no role here. -/
def getEventById (db : Database) (eid : Int) : List EventRow :=
  db.events.filter (fun e => e.id = eid)

/-- `DatabaseManager.get_event_inscriptions`: the `created_at` column of the
inscriptions of one event. -/
def getEventInscriptionRows (db : Database) (eid : Int) : List Int :=
  (db.inscriptions.filter (fun p => p.1 = eid)).map (fun p => p.2)

/-- `DatabaseManager.get_event_transactions_data`: the transaction rows of
one event. -/
def getEventTransactionRows (db : Database) (eid : Int) : List RawTx :=
  (db.transactions.filter (fun p => p.1 = eid)).map (fun p => p.2)

/-- `EventInscriptions` response model. -/
structure EventInscriptions where
  id : String
  chart : InscriptionsChart
  currentInscriptions : ℕ
  averageInscriptions : ℚ
  targetInscriptions : Int
deriving DecidableEq

/-- `EventRevenue` response model; `ticketPrice = none` models a NaN float. -/
structure EventRevenue where
  id : String
  chart : RevenueChart
  ticketPrice : Option ℚ
  totalRevenue : ℚ
deriving DecidableEq

/-- `InscriptionsAnalytics._calculate_average_inscriptions` (inscriptions.py
lines 39-46): registrations per elapsed day, where the elapsed period ends at
`min(now, start_date)`. -/
def calcAverageInscriptions (now created_at start_date : Int) (current : ℕ) : ℚ :=
  let endPeriod := min now start_date
  let totalDays := Int.fdiv (endPeriod - created_at) 86400
  if totalDays ≤ 0 then 0 else round2 ((current : ℚ) / (totalDays : ℚ))

/-- The zero-valued `EventInscriptions` built for an empty inscription set
(inscriptions.py lines 14-21). -/
def zeroInscriptions (eid : Int) : EventInscriptions :=
  { id := toString eid, chart := { remaining_days := [], inscriptions := [] },
    currentInscriptions := 0, averageInscriptions := 0, targetInscriptions := 0 }

/-- The zero-valued `EventRevenue` built for a missing event or empty
transaction set (revenue.py lines 15-21). -/
def zeroRevenue (eid : Int) : EventRevenue :=
  { id := toString eid, chart := { remaining_days := [], revenue := [] },
    ticketPrice := some 0, totalRevenue := 0 }

/-- `InscriptionsAnalytics.get_event_inscriptions` (inscriptions.py lines
12-37).  `none` models the `IndexError` of `event_df.iloc[0]` when the
inscription set is non-empty but the event row does not exist; every other
path returns normally. -/
def getEventInscriptions (now : Int) (db : Database) (eid : Int) :
    Option EventInscriptions :=
  let rows := getEventInscriptionRows db eid
  if rows.isEmpty then some (zeroInscriptions eid)
  else
    match getEventById db eid with
    | [] => none
    | e :: _ =>
        some { id := toString eid,
               chart := generateInscriptionsChartData e.created_at e.start_date rows,
               currentInscriptions := rows.length,
               averageInscriptions :=
                 calcAverageInscriptions now e.created_at e.start_date rows.length,
               targetInscriptions := e.target_inscriptions }

/-- `RevenueAnalytics.get_event_revenue` (revenue.py lines 11-35).  The
loader's `org_id` is threaded through as `_orgId` but, as in the code, no
per-event query consults it. -/
def getEventRevenue (_orgId : Int) (db : Database) (eid : Int) : EventRevenue :=
  match getEventById db eid, getEventTransactionRows db eid with
  | [], _ => zeroRevenue eid
  | _ :: _, [] => zeroRevenue eid
  | e :: _, tx :: txs =>
      let prep := prepareTransactions e.start_date (tx :: txs)
      { id := toString eid,
        chart := generateRevenueChartData e.created_at e.start_date prep,
        ticketPrice := calcTicketPrice prep,
        totalRevenue := calcTotalRevenue prep }

/-- Value of a standard base64 alphabet character, `none` for everything
else. -/
def b64Val (c : Char) : Option ℕ :=
  if 'A' ≤ c && c ≤ 'Z' then some (c.toNat - 65)
  else if 'a' ≤ c && c ≤ 'z' then some (c.toNat - 97 + 26)
  else if '0' ≤ c && c ≤ '9' then some (c.toNat - 48 + 52)
  else if c = '+' then some 62
  else if c = '/' then some 63
  else none

/-- Decode base64 quads into bytes; `'='` padding is accepted only at the end
of the stream.  `Except.error` models the `binascii.Error` raised by
`base64.b64decode`. -/
def b64Chunks : List Char → Except Unit (List ℕ)
  | [] => .ok []
  | c1 :: c2 :: c3 :: c4 :: rest =>
      match b64Val c1, b64Val c2 with
      | some v1, some v2 =>
          if c3 = '=' then
            if c4 = '=' && rest.isEmpty then .ok [v1 * 4 + v2 / 16] else .error ()
          else
            match b64Val c3 with
            | some v3 =>
                if c4 = '=' then
                  if rest.isEmpty then .ok [v1 * 4 + v2 / 16, v2 % 16 * 16 + v3 / 4]
                  else .error ()
                else
                  match b64Val c4 with
                  | some v4 =>
                      match b64Chunks rest with
                      | .ok bs =>
                          .ok ((v1 * 4 + v2 / 16) :: (v2 % 16 * 16 + v3 / 4) ::
                               (v3 % 4 * 64 + v4) :: bs)
                      | .error e => .error e
                  | none => .error ()
            | none => .error ()
      | _, _ => .error ()
  | _ => .error ()

/-- `_b64url_decode` (src/utils/crypto.py lines 9-14): translate the URL-safe
alphabet, pad with `'='` to a multiple of 4 **counting the raw input length**,
then `base64.b64decode`, which first discards characters outside the base64
alphabet and then fails if the remaining length is not a multiple of 4 —
so an input holding non-alphabet characters can still raise. -/
def b64urlDecode (s : List Char) : Except Unit (List ℕ) :=
  let t := s.map (fun c => if c = '-' then '+' else if c = '_' then '/' else c)
  let missing := (4 - t.length % 4) % 4
  let padded := t ++ List.replicate missing '='
  let kept := padded.filter (fun c => (b64Val c).isSome || c = '=')
  if kept.length % 4 = 0 then b64Chunks kept else .error ()

/-- The inline `_unpad_pkcs7` of `decrypt` (src/utils/crypto.py lines 40-46):
strip a well-formed PKCS#7 tail, otherwise return the data unchanged. -/
def unpadPkcs7 (data : List ℕ) : List ℕ :=
  match data.getLast? with
  | none => data
  | some pad =>
      if pad < 1 || pad > 16 || data.length < pad
         || !((data.drop (data.length - pad)).all (fun b => b = pad)) then data
      else data.take (data.length - pad)

/-- `token.split(".", 1)`: the part before the first `'.'` and everything
after it. -/
def splitAtFirstDot (cs : List Char) : List Char × List Char :=
  (cs.takeWhile (fun c => c ≠ '.'), (cs.dropWhile (fun c => c ≠ '.')).drop 1)

/-- The distinct exception families `decrypt` can raise, by pipeline stage:
`binascii.Error` from base64, `ValueError` from `load_der_private_key` or the
explicit RSA type check, the OAEP decryption failure, `ValueError` from
`algorithms.AES` / `modes.CBC` / `finalize` on bad lengths, and
`UnicodeDecodeError` from `.decode("utf-8")`. -/
inductive DecryptError where
  | badBase64
  | badKey
  | oaepFailure
  | badAesKey
  | badIv
  | badCtLength
  | notUtf8
deriving DecidableEq

/-- The cryptographic and Python-runtime primitives `decrypt` calls out to,
kept abstract: whether the DER blob loads as an RSA private key, RSA/OAEP
decryption (`none` = failure), raw AES-256-CBC decryption, UTF-8 decoding
(`none` = `UnicodeDecodeError`), and `ast.literal_eval(...)['org_id']`
(`none` = the caught `ValueError`/`SyntaxError`/`KeyError`). -/
structure CryptoPrims where
  loadKeyOk : List ℕ → Bool
  rsaDecrypt : List ℕ → List ℕ → Option (List ℕ)
  aesCbcDecrypt : List ℕ → List ℕ → List ℕ → List ℕ
  utf8Decode : List ℕ → Option String
  literalEvalOrgId : String → Option String

/-- `decrypt` (src/utils/crypto.py lines 16-52).  A token without `'.'` is
returned unchanged; otherwise the payload is base64-decoded, split into
RSA-encrypted AES key (256 bytes), IV (16 bytes) and ciphertext, and pushed
through the pipeline.  Only the final `ast.literal_eval` stage is guarded by
`try/except` and collapses to `""`; every earlier failure propagates as an
exception, modelled by `Except.error`. -/
def decrypt (P : CryptoPrims) (token : String) : Except DecryptError String :=
  if '.' ∈ token.data then
    let parts := splitAtFirstDot token.data
    match b64urlDecode parts.1 with
    | .error _ => .error .badBase64
    | .ok combined =>
        match b64urlDecode parts.2 with
        | .error _ => .error .badBase64
        | .ok keyBytes =>
            let encryptedKey := combined.take 256
            let iv := (combined.drop 256).take 16
            let encryptedContent := combined.drop 272
            if !P.loadKeyOk keyBytes then .error .badKey
            else
              match P.rsaDecrypt keyBytes encryptedKey with
              | none => .error .oaepFailure
              | some aesKey =>
                  if !(aesKey.length = 16 || aesKey.length = 24 || aesKey.length = 32) then
                    .error .badAesKey
                  else if iv.length ≠ 16 then .error .badIv
                  else if encryptedContent.length % 16 ≠ 0 then .error .badCtLength
                  else
                    let padded := P.aesCbcDecrypt aesKey iv encryptedContent
                    let plain := unpadPkcs7 padded
                    match P.utf8Decode plain with
                    | none => .error .notUtf8
                    | some s =>
                        match P.literalEvalOrgId s with
                        | some orgId => .ok orgId
                        | none => .ok ""
  else .ok token

/-- A concrete primitive set used to evaluate `decrypt` on closed inputs:
every stage succeeds on the zero-byte inputs produced below and the final
payload parse fails (an empty plaintext is not a literal dict). -/
def trivialPrims : CryptoPrims :=
  { loadKeyOk := fun _ => true,
    rsaDecrypt := fun _ _ => some (List.replicate 32 0),
    aesCbcDecrypt := fun _ _ _ => [],
    utf8Decode := fun bs => if bs.isEmpty then some "" else none,
    literalEvalOrgId := fun _ => none }

/-- A URL-safe base64 payload decoding to exactly 272 zero bytes (256-byte
RSA block plus 16-byte IV, empty ciphertext). -/
def witPayload : List Char := List.replicate 363 'A' ++ ['=']

/-- A URL-safe base64 key part decoding to three zero bytes. -/
def witKey : List Char := ['A', 'A', 'A', 'A']

/-! ### Range lemmas -/

theorem mem_rangeDown {a b d : Int} : d ∈ rangeDown a b ↔ b < d ∧ d ≤ a := by
  unfold rangeDown
  constructor
  · intro h
    obtain ⟨k, hk, hkd⟩ := List.mem_map.mp h
    rw [List.mem_range] at hk
    omega
  · intro h
    refine List.mem_map.mpr ⟨(a - d).toNat, ?_, ?_⟩
    · rw [List.mem_range]; omega
    · omega

theorem mem_arangeUp {a b d : Int} : d ∈ arangeUp a b ↔ a ≤ d ∧ d < b := by
  unfold arangeUp
  constructor
  · intro h
    obtain ⟨k, hk, hkd⟩ := List.mem_map.mp h
    rw [List.mem_range] at hk
    omega
  · intro h
    refine List.mem_map.mpr ⟨(d - a).toNat, ?_, ?_⟩
    · rw [List.mem_range]; omega
    · omega

theorem chain'_range_map {r : Int → Int → Prop} :
    ∀ (n : ℕ) (f : ℕ → Int), (∀ i, r (f i) (f (i + 1))) →
      List.Chain' r ((List.range n).map f) := by
  intro n
  induction n with
  | zero => intro f _; simp
  | succ m ih =>
      intro f h
      rw [List.range_succ_eq_map]
      simp only [List.map_cons, List.map_map]
      rw [List.chain'_cons']
      constructor
      · intro y hy
        cases m with
        | zero => simp at hy
        | succ m2 =>
            rw [List.range_succ_eq_map] at hy
            simp only [List.map_cons, List.head?_cons, Option.mem_def,
              Option.some.injEq] at hy
            subst hy
            exact h 0
      · exact ih (fun i => f (i + 1)) (fun i => h (i + 1))

theorem rangeDown_chain' (a b : Int) : List.Chain' (· > ·) (rangeDown a b) := by
  unfold rangeDown
  exact chain'_range_map _ _ (fun i => by omega)

theorem arangeUp_chain' (a b : Int) : List.Chain' (· < ·) (arangeUp a b) := by
  unfold arangeUp
  exact chain'_range_map _ _ (fun i => by omega)

theorem rangeDown_nodup (a b : Int) : (rangeDown a b).Nodup :=
  List.Nodup.map (fun x y hxy => by omega) (List.nodup_range _)

theorem rangeDown_eq_nil_iff {a b : Int} : rangeDown a b = [] ↔ a ≤ b := by
  unfold rangeDown
  rw [List.map_eq_nil_iff, List.range_eq_nil]
  omega

/-! ### Cumulative-count lemmas for the inscriptions aggregator -/

theorem countLeads_cons (x : Int) (ls : List Int) (d : Int) :
    countLeads (x :: ls) d = (if x = d then 1 else 0) + countLeads ls d := by
  simp only [countLeads, List.filter_cons]
  by_cases h : x = d <;> simp [h, Nat.add_comm]

theorem sum_map_add {α : Type} (f g : α → ℕ) (l : List α) :
    (l.map (fun a => f a + g a)).sum = (l.map f).sum + (l.map g).sum := by
  induction l with
  | nil => simp
  | cons a l ih => simp [ih]; omega

theorem sum_indicator_zero_of_not_mem {x : Int} :
    ∀ {days : List Int}, x ∉ days →
      (days.map (fun d => if x = d then 1 else 0)).sum = 0 := by
  intro days
  induction days with
  | nil => simp
  | cons d rest ih =>
      intro h
      simp only [List.mem_cons, not_or] at h
      simp [h.1, ih h.2]

theorem sum_indicator_le_one {x : Int} :
    ∀ {days : List Int}, days.Nodup →
      (days.map (fun d => if x = d then 1 else 0)).sum ≤ 1 := by
  intro days
  induction days with
  | nil => simp
  | cons d rest ih =>
      intro h
      rw [List.nodup_cons] at h
      by_cases hx : x = d
      · subst hx
        simp [sum_indicator_zero_of_not_mem h.1]
      · simpa [hx] using ih h.2

theorem sum_countLeads_nil (days : List Int) :
    (days.map (countLeads ([] : List Int))).sum = 0 := by
  induction days with
  | nil => rfl
  | cons d r ih => simp [countLeads, ih]

theorem sum_countLeads_le (leads : List Int) :
    ∀ (days : List Int), days.Nodup →
      (days.map (countLeads leads)).sum ≤ leads.length := by
  induction leads with
  | nil =>
      intro days _
      have hz := sum_countLeads_nil days
      omega
  | cons x ls ih =>
      intro days hnd
      have hfun : countLeads (x :: ls) =
          (fun d => (if x = d then 1 else 0) + countLeads ls d) :=
        funext (fun d => countLeads_cons x ls d)
      have hsplit : (days.map (countLeads (x :: ls))).sum =
          (days.map (fun d => if x = d then 1 else 0)).sum +
          (days.map (countLeads ls)).sum := by
        rw [hfun, sum_map_add]
      rw [hsplit]
      have h1 := sum_indicator_le_one (x := x) hnd
      have h2 := ih days hnd
      simp only [List.length_cons]
      omega

theorem cumCounts_head?_le (leads : List Int) (acc : ℕ) (days : List Int) :
    ∀ y ∈ (cumCounts leads acc days).head?, acc ≤ y := by
  cases days with
  | nil => simp [cumCounts]
  | cons d rest =>
      intro y hy
      simp only [cumCounts, List.head?_cons, Option.mem_def, Option.some.injEq] at hy
      omega

theorem cumCounts_chain' (leads : List Int) :
    ∀ (days : List Int) (acc : ℕ), List.Chain' (· ≤ ·) (cumCounts leads acc days) := by
  intro days
  induction days with
  | nil => intro acc; simp [cumCounts]
  | cons d rest ih =>
      intro acc
      rw [cumCounts, List.chain'_cons']
      exact ⟨fun y hy => cumCounts_head?_le leads _ rest y hy, ih _⟩

theorem cumCounts_le (leads : List Int) :
    ∀ (days : List Int) (acc : ℕ) (y : ℕ), y ∈ cumCounts leads acc days →
      y ≤ acc + (days.map (countLeads leads)).sum := by
  intro days
  induction days with
  | nil => intro acc y hy; simp [cumCounts] at hy
  | cons d rest ih =>
      intro acc y hy
      rw [cumCounts, List.mem_cons] at hy
      rcases hy with rfl | hy
      · rw [List.map_cons, List.sum_cons]; omega
      · have := ih (acc + countLeads leads d) y hy
        simp only [List.map_cons, List.sum_cons]
        omega

theorem cumCounts_length (leads : List Int) :
    ∀ (days : List Int) (acc : ℕ), (cumCounts leads acc days).length = days.length := by
  intro days
  induction days with
  | nil => intro acc; simp [cumCounts]
  | cons d rest ih => intro acc; simp [cumCounts, ih]

/-! ### setLast lemmas -/

theorem setLast_getLast? : ∀ (xs : List ℕ) (v : ℕ), xs ≠ [] →
    (setLast xs v).getLast? = some v
  | [], _, h => absurd rfl h
  | [_], v, _ => by simp [setLast]
  | x :: y :: r, v, _ => by
      cases r with
      | nil => simp [setLast]
      | cons z r2 =>
          have hstep : setLast (x :: y :: z :: r2) v = x :: setLast (y :: z :: r2) v := rfl
          have hstep2 : setLast (y :: z :: r2) v = y :: setLast (z :: r2) v := rfl
          rw [hstep, hstep2, List.getLast?_cons_cons, ← hstep2]
          exact setLast_getLast? (y :: z :: r2) v (by simp)

theorem setLast_chain' : ∀ (xs : List ℕ) (v : ℕ),
    List.Chain' (· ≤ ·) xs → (∀ x ∈ xs, x ≤ v) →
    List.Chain' (· ≤ ·) (setLast xs v)
  | [], _, _, _ => by simp [setLast]
  | [_], v, _, _ => by simp [setLast]
  | x :: y :: r, v, hchain, hall => by
      have hstep : setLast (x :: y :: r) v = x :: setLast (y :: r) v := rfl
      rw [hstep, List.chain'_cons']
      rw [List.chain'_cons'] at hchain
      constructor
      · intro z hz
        cases r with
        | nil =>
            simp [setLast] at hz
            subst hz
            exact hall x (by simp)
        | cons w r2 =>
            have hstep2 : setLast (y :: w :: r2) v = y :: setLast (w :: r2) v := rfl
            rw [hstep2] at hz
            simp at hz
            subst hz
            exact hchain.1 y (by simp)
      · exact setLast_chain' (y :: r) v hchain.2
          (fun z hz => hall z (List.mem_cons_of_mem _ hz))

theorem setLast_ne_nil {xs : List ℕ} (v : ℕ) (h : xs ≠ []) : setLast xs v ≠ [] := by
  cases xs with
  | nil => exact absurd rfl h
  | cons x r =>
      cases r with
      | nil => simp [setLast]
      | cons y r2 => simp [setLast]

/-! ### Unfolding characterizations of the two inscriptions aggregators -/

theorem generateInscriptionsChartData_eq (created_at start_date : Int)
    (times : List Int) (hne : times ≠ []) :
    generateInscriptionsChartData created_at start_date times =
      { remaining_days := rangeDown (Int.fdiv (start_date - created_at) 86400) (-1),
        inscriptions :=
          setLast
            (cumCounts (times.map (fun t => Int.fdiv (start_date - t) 86400)) 0
              (rangeDown (Int.fdiv (start_date - created_at) 86400) (-1)))
            times.length } := by
  unfold generateInscriptionsChartData
  rw [if_neg (by simpa [List.isEmpty_iff] using hne)]

theorem legacyGenerateInscriptionsChartData_eq (now created_at start_date : Int)
    (times : List Int) (hne : times ≠ []) :
    legacyGenerateInscriptionsChartData now created_at start_date times =
      { remaining_days :=
          rangeDown (Int.fdiv (start_date - created_at) 86400)
            ((if now < start_date then max 0 (Int.fdiv (start_date - now) 86400) else 0) - 1),
        inscriptions :=
          (rangeDown (Int.fdiv (start_date - created_at) 86400)
            ((if now < start_date then max 0 (Int.fdiv (start_date - now) 86400) else 0) - 1)).map
            (fun d =>
              ((times.map (fun t => Int.fdiv (start_date - t) 86400)).filter
                (fun x => d ≤ x)).length) } := by
  unfold legacyGenerateInscriptionsChartData
  rw [if_neg (by simpa [List.isEmpty_iff] using hne)]

/-- C1: for a non-empty registration set of an event created no later than its
start, the cumulative inscription series is non-decreasing along the output
order (descending lead days) and its final bucket is exactly the total
registration count (it is force-set to `len(df)`). -/
theorem inscriptions_series_monotone_total (created_at start_date : Int)
    (times : List Int) (hne : times ≠ []) (hcs : created_at ≤ start_date) :
    List.Chain' (· ≤ ·)
      (generateInscriptionsChartData created_at start_date times).inscriptions ∧
    (generateInscriptionsChartData created_at start_date times).inscriptions.getLast?
      = some times.length := by
  rw [generateInscriptionsChartData_eq created_at start_date times hne]
  simp only
  set leads := times.map (fun t => Int.fdiv (start_date - t) 86400) with hleads
  set maxDays := Int.fdiv (start_date - created_at) 86400 with hmaxDays
  set days := rangeDown maxDays (-1) with hdaysdef
  have hmax : 0 ≤ maxDays := Int.fdiv_nonneg (by omega) (by norm_num)
  have hdays : days ≠ [] := by
    intro h
    rw [hdaysdef, rangeDown_eq_nil_iff] at h
    omega
  have hcum_ne : cumCounts leads 0 days ≠ [] := by
    intro h
    have hlen := cumCounts_length leads days 0
    rw [h] at hlen
    exact hdays (List.length_eq_zero.mp hlen.symm)
  constructor
  · apply setLast_chain'
    · exact cumCounts_chain' leads days 0
    · intro x hx
      have h1 := cumCounts_le leads days 0 x hx
      have h2 := sum_countLeads_le leads days (by rw [hdaysdef]; exact rangeDown_nodup _ _)
      have h3 : leads.length = times.length := List.length_map _ _
      omega
  · exact setLast_getLast? _ _ hcum_ne

/-- Witness for C1 at a concrete event (created at 0, starting two days
later) with two registrations. -/
theorem inscriptions_series_monotone_total_witness :
    List.Chain' (· ≤ ·)
      (generateInscriptionsChartData 0 172800 [0, 86400]).inscriptions ∧
    (generateInscriptionsChartData 0 172800 [0, 86400]).inscriptions.getLast?
      = some 2 := by
  have h := inscriptions_series_monotone_total 0 172800 [0, 86400]
    (by decide) (by decide)
  simpa using h

/-- C3 counterexample: for the active aggregator, an event created at time 0
and starting at 432000 (5 days later), observed `now = 259200` (2 full days
of lead remaining, so the claimed `floor_bound` is 2), still produces the day
range all the way down to 0, not the claimed `[5, 4, 3, 2]`. -/
theorem inscriptions_domain_cex :
    (generateInscriptionsChartData 0 432000 [0]).remaining_days = [5, 4, 3, 2, 1, 0] ∧
    (if (259200 : Int) < 432000 then max 0 (Int.fdiv (432000 - 259200) 86400) else 0) = 2 ∧
    ([5, 4, 3, 2, 1, 0] : List Int) ≠ [5, 4, 3, 2] :=
  ⟨by decide, by decide, by decide⟩

/-- C3 amended: the active aggregator's domain is the descending integer
range `[0, max_lead]` regardless of the current time, while the legacy
aggregator (src/analytics.py) uses the descending range
`[floor_bound, max_lead]` with `floor_bound = max(0, days(start, now))` while
the event has not started and `0` afterwards. -/
theorem inscriptions_domain_descending_range (now created_at start_date : Int)
    (times : List Int) (hne : times ≠ []) :
    ((∀ d : Int,
        d ∈ (generateInscriptionsChartData created_at start_date times).remaining_days ↔
          0 ≤ d ∧ d ≤ Int.fdiv (start_date - created_at) 86400) ∧
      List.Chain' (· > ·)
        (generateInscriptionsChartData created_at start_date times).remaining_days) ∧
    ((∀ d : Int,
        d ∈ (legacyGenerateInscriptionsChartData now created_at start_date times).remaining_days ↔
          (if now < start_date then max 0 (Int.fdiv (start_date - now) 86400) else 0) ≤ d ∧
            d ≤ Int.fdiv (start_date - created_at) 86400) ∧
      List.Chain' (· > ·)
        (legacyGenerateInscriptionsChartData now created_at start_date times).remaining_days) := by
  rw [generateInscriptionsChartData_eq created_at start_date times hne,
    legacyGenerateInscriptionsChartData_eq now created_at start_date times hne]
  simp only
  set m := if now < start_date then max 0 (Int.fdiv (start_date - now) 86400) else 0 with hm
  refine ⟨⟨?_, rangeDown_chain' _ _⟩, ⟨?_, rangeDown_chain' _ _⟩⟩
  · intro d
    rw [mem_rangeDown]
    omega
  · intro d
    rw [mem_rangeDown]
    omega

/-- Witness for C3 (amended) at the counterexample's concrete event. -/
theorem inscriptions_domain_descending_range_witness :
    ((∀ d : Int,
        d ∈ (generateInscriptionsChartData 0 432000 [0]).remaining_days ↔
          0 ≤ d ∧ d ≤ Int.fdiv (432000 - 0) 86400) ∧
      List.Chain' (· > ·) (generateInscriptionsChartData 0 432000 [0]).remaining_days) ∧
    ((∀ d : Int,
        d ∈ (legacyGenerateInscriptionsChartData 259200 0 432000 [0]).remaining_days ↔
          (if (259200 : Int) < 432000 then max 0 (Int.fdiv (432000 - 259200) 86400) else 0) ≤ d ∧
            d ≤ Int.fdiv (432000 - 0) 86400) ∧
      List.Chain' (· > ·)
        (legacyGenerateInscriptionsChartData 259200 0 432000 [0]).remaining_days) :=
  inscriptions_domain_descending_range 259200 0 432000 [0] (by decide)

/-! ### Reversed-cumulative-sum lemmas for the revenue aggregator -/

theorem cumsumFrom_append (xs : List ℚ) (x : ℚ) :
    ∀ acc : ℚ, cumsumFrom acc (xs ++ [x]) = cumsumFrom acc xs ++ [acc + xs.sum + x] := by
  induction xs with
  | nil => intro acc; simp [cumsumFrom]
  | cons y ys ih =>
      intro acc
      have h1 : cumsumFrom acc ((y :: ys) ++ [x]) =
          (acc + y) :: cumsumFrom (acc + y) (ys ++ [x]) := rfl
      have h2 : cumsumFrom acc (y :: ys) = (acc + y) :: cumsumFrom (acc + y) ys := rfl
      rw [h1, h2, ih (acc + y), List.sum_cons, List.cons_append]
      simp [add_assoc]

theorem revCumsum_eq_suffixSums (l : List ℚ) :
    (cumsum l.reverse).reverse = suffixSums l := by
  induction l with
  | nil => simp [cumsum, cumsumFrom, suffixSums]
  | cons x xs ih =>
      rw [List.reverse_cons,
        show cumsum (xs.reverse ++ [x]) = cumsumFrom 0 (xs.reverse ++ [x]) from rfl,
        cumsumFrom_append, List.reverse_append]
      rw [show cumsumFrom 0 xs.reverse = cumsum xs.reverse from rfl]
      simp only [List.reverse_cons, List.reverse_nil, List.nil_append, List.cons_append,
        List.sum_reverse, zero_add, ih, suffixSums]
      rw [add_comm]

theorem arangeUp_eq_nil {a b : Int} (h : b ≤ a) : arangeUp a b = [] := by
  unfold arangeUp
  rw [List.map_eq_nil_iff, List.range_eq_nil]
  omega

theorem arangeUp_cons {a b : Int} (h : a < b) :
    arangeUp a b = a :: arangeUp (a + 1) b := by
  unfold arangeUp
  have hn : (b - a).toNat = (b - (a + 1)).toNat + 1 := by omega
  rw [hn, List.range_succ_eq_map]
  simp only [List.map_cons, List.map_map, Nat.cast_zero, add_zero]
  congr 1
  refine List.map_congr_left ?_
  intro k _
  simp [Function.comp]
  ring

theorem sumInRange_cons (t : PrepTx) (rest : List PrepTx) (lo hi : Int) :
    sumInRange (t :: rest) lo hi =
      (if lo ≤ t.dias ∧ t.dias ≤ hi then t.signed_amount.getD 0 else 0) +
        sumInRange rest lo hi := by
  simp only [sumInRange, List.filter_cons]
  by_cases h : lo ≤ t.dias ∧ t.dias ≤ hi <;> simp [h]

theorem dailySum_cons (t : PrepTx) (rest : List PrepTx) (d : Int) :
    dailySum (t :: rest) d =
      (if t.dias = d then t.signed_amount.getD 0 else 0) + dailySum rest d := by
  simp only [dailySum, List.filter_cons]
  by_cases h : t.dias = d <;> simp [h]

theorem sumInRange_of_lt : ∀ (prep : List PrepTx) {lo hi : Int}, hi < lo →
    sumInRange prep lo hi = 0
  | [], _, _, _ => rfl
  | t :: rest, lo, hi, h => by
      rw [sumInRange_cons, if_neg (by omega), sumInRange_of_lt rest h, add_zero]

theorem dailySum_add_sumInRange (a hi : Int) (hle : a ≤ hi) :
    ∀ prep : List PrepTx,
      dailySum prep a + sumInRange prep (a + 1) hi = sumInRange prep a hi
  | [] => by simp [dailySum, sumInRange]
  | t :: rest => by
      rw [dailySum_cons, sumInRange_cons, sumInRange_cons,
        ← dailySum_add_sumInRange a hi hle rest]
      by_cases h1 : t.dias = a
      · rw [if_pos h1, if_neg (by omega), if_pos (by omega)]
        ring
      · by_cases h2 : a + 1 ≤ t.dias ∧ t.dias ≤ hi
        · rw [if_neg h1, if_pos h2, if_pos (by omega)]
          ring
        · rw [if_neg h1, if_neg h2, if_neg (by omega)]
          ring

theorem sum_dailySum_range (prep : List PrepTx) :
    ∀ (n : ℕ) (a b : Int), (b - a).toNat = n →
      ((arangeUp a b).map (dailySum prep)).sum = sumInRange prep a (b - 1) := by
  intro n
  induction n with
  | zero =>
      intro a b h
      rw [arangeUp_eq_nil (by omega)]
      rw [sumInRange_of_lt prep (by omega)]
      simp
  | succ m ih =>
      intro a b h
      rw [arangeUp_cons (by omega), List.map_cons, List.sum_cons, ih (a + 1) b (by omega)]
      exact dailySum_add_sumInRange a (b - 1) (by omega) prep

theorem suffixSums_dailySum (prep : List PrepTx) :
    ∀ (n : ℕ) (a b : Int), (b - a).toNat = n →
      suffixSums ((arangeUp a b).map (dailySum prep)) =
        (arangeUp a b).map (fun d => sumInRange prep d (b - 1)) := by
  intro n
  induction n with
  | zero =>
      intro a b h
      rw [arangeUp_eq_nil (by omega)]
      rfl
  | succ m ih =>
      intro a b h
      rw [arangeUp_cons (by omega)]
      simp only [List.map_cons, suffixSums]
      have hhead : dailySum prep a + ((arangeUp (a + 1) b).map (dailySum prep)).sum =
          sumInRange prep a (b - 1) := by
        rw [sum_dailySum_range prep ((b - (a + 1)).toNat) (a + 1) b rfl]
        exact dailySum_add_sumInRange a (b - 1) (by omega) prep
      rw [hhead, ih (a + 1) b (by omega)]

theorem generateRevenueChartData_spec (created_at start_date : Int) (prep : List PrepTx) :
    (generateRevenueChartData created_at start_date prep).remaining_days =
      arangeUp 0 (Int.fdiv (start_date - created_at) 86400 + 1) ∧
    (generateRevenueChartData created_at start_date prep).revenue =
      (arangeUp 0 (Int.fdiv (start_date - created_at) 86400 + 1)).map
        (fun d => round2 (sumInRange prep d (Int.fdiv (start_date - created_at) 86400))) := by
  refine ⟨rfl, ?_⟩
  show ((cumsum ((arangeUp 0 (Int.fdiv (start_date - created_at) 86400 + 1)).map
      (dailySum prep)).reverse).reverse).map round2 =
    (arangeUp 0 (Int.fdiv (start_date - created_at) 86400 + 1)).map
      (fun d => round2 (sumInRange prep d (Int.fdiv (start_date - created_at) 86400)))
  rw [revCumsum_eq_suffixSums, suffixSums_dailySum prep _ 0 _ rfl, List.map_map]
  simp only [add_sub_cancel_right]
  rfl

/-- C4: for a non-empty transaction set of an event created no later than its
start, the revenue series covers lead days 0 through `max_lead` in ascending
order, and the bucket at lead day `d` is the 2-decimal rounding — applied
once, at externalization — of the exact sum of signed amounts of the
transactions with lead day in `[d, max_lead]`. -/
theorem revenue_series_domain_and_buckets (created_at start_date : Int)
    (txs : List RawTx) (hne : txs ≠ []) (hcs : created_at ≤ start_date) :
    (∀ d : Int,
        d ∈ (generateRevenueChartData created_at start_date
              (prepareTransactions start_date txs)).remaining_days ↔
          0 ≤ d ∧ d ≤ Int.fdiv (start_date - created_at) 86400) ∧
    List.Chain' (· < ·)
      (generateRevenueChartData created_at start_date
        (prepareTransactions start_date txs)).remaining_days ∧
    (generateRevenueChartData created_at start_date
        (prepareTransactions start_date txs)).revenue =
      (generateRevenueChartData created_at start_date
        (prepareTransactions start_date txs)).remaining_days.map
        (fun d => round2 (sumInRange (prepareTransactions start_date txs) d
          (Int.fdiv (start_date - created_at) 86400))) := by
  obtain ⟨h1, h2⟩ :=
    generateRevenueChartData_spec created_at start_date (prepareTransactions start_date txs)
  refine ⟨?_, ?_, ?_⟩
  · intro d
    rw [h1, mem_arangeUp]
    omega
  · rw [h1]
    exact arangeUp_chain' _ _
  · rw [h1, h2]

/-- Witness for C4: one credited transaction of "10,50" one day before an
event with a two-day lead window. -/
theorem revenue_series_domain_and_buckets_witness :
    (∀ d : Int,
        d ∈ (generateRevenueChartData 0 172800
              (prepareTransactions 172800
                [{ amount := some "10,50", credit := some 1,
                   transaction_date := some 86400 }])).remaining_days ↔
          0 ≤ d ∧ d ≤ Int.fdiv (172800 - 0) 86400) ∧
    List.Chain' (· < ·)
      (generateRevenueChartData 0 172800
        (prepareTransactions 172800
          [{ amount := some "10,50", credit := some 1,
             transaction_date := some 86400 }])).remaining_days ∧
    (generateRevenueChartData 0 172800
        (prepareTransactions 172800
          [{ amount := some "10,50", credit := some 1,
             transaction_date := some 86400 }])).revenue =
      (generateRevenueChartData 0 172800
        (prepareTransactions 172800
          [{ amount := some "10,50", credit := some 1,
             transaction_date := some 86400 }])).remaining_days.map
        (fun d => round2 (sumInRange
          (prepareTransactions 172800
            [{ amount := some "10,50", credit := some 1,
               transaction_date := some 86400 }]) d (Int.fdiv (172800 - 0) 86400))) :=
  revenue_series_domain_and_buckets 0 172800
    [{ amount := some "10,50", credit := some 1, transaction_date := some 86400 }]
    (by decide) (by decide)

/-- C2 counterexample: one credited transaction of "10,00" dated two days
after the event start (lead day -2, outside `[0, max_lead]`): `totalRevenue`
is 10 while the revenue series value at lead day 0 is 0 — far outside any
2-decimal rounding tolerance. -/
theorem revenue_total_vs_day0_cex :
    calcTotalRevenue (prepareTransactions 432000
        [{ amount := some "10,00", credit := some 1, transaction_date := some 604800 }])
      = 10 ∧
    (generateRevenueChartData 0 432000 (prepareTransactions 432000
        [{ amount := some "10,00", credit := some 1,
           transaction_date := some 604800 }])).remaining_days.head? = some 0 ∧
    (generateRevenueChartData 0 432000 (prepareTransactions 432000
        [{ amount := some "10,00", credit := some 1,
           transaction_date := some 604800 }])).revenue.head? = some 0 ∧
    (10 : ℚ) ≠ 0 :=
  ⟨by with_unfolding_all decide, by with_unfolding_all decide,
   by with_unfolding_all decide, by with_unfolding_all decide⟩

/-- C2 amended: `totalRevenue` is the 2-decimal rounding of the sum of signed
amounts over the whole prepared record set, and it equals the revenue series
value at lead day 0 provided every prepared transaction's lead day lies
within `[0, max_lead]` (records outside that window are dropped from the
bucketed series but kept in `totalRevenue`). -/
theorem revenue_total_matches_day0 (created_at start_date : Int) (txs : List RawTx)
    (hne : txs ≠ []) (hcs : created_at ≤ start_date)
    (hin : ∀ t ∈ prepareTransactions start_date txs,
      0 ≤ t.dias ∧ t.dias ≤ Int.fdiv (start_date - created_at) 86400) :
    (generateRevenueChartData created_at start_date
        (prepareTransactions start_date txs)).remaining_days.head? = some 0 ∧
    (generateRevenueChartData created_at start_date
        (prepareTransactions start_date txs)).revenue.head? =
      some (calcTotalRevenue (prepareTransactions start_date txs)) := by
  obtain ⟨h1, h2⟩ :=
    generateRevenueChartData_spec created_at start_date (prepareTransactions start_date txs)
  have hmax : 0 ≤ Int.fdiv (start_date - created_at) 86400 :=
    Int.fdiv_nonneg (by omega) (by norm_num)
  have hcons : arangeUp 0 (Int.fdiv (start_date - created_at) 86400 + 1) =
      0 :: arangeUp 1 (Int.fdiv (start_date - created_at) 86400 + 1) :=
    arangeUp_cons (by omega)
  constructor
  · rw [h1, hcons]
    rfl
  · rw [h2, hcons, List.map_cons, List.head?_cons]
    have hfilter : (prepareTransactions start_date txs).filter
        (fun t => decide (0 ≤ t.dias ∧
          t.dias ≤ Int.fdiv (start_date - created_at) 86400)) =
        prepareTransactions start_date txs := by
      rw [List.filter_eq_self]
      intro t ht
      exact decide_eq_true (hin t ht)
    unfold calcTotalRevenue sumInRange
    rw [hfilter]

/-- Witness for C2 (amended): the in-window transaction of the C4 witness. -/
theorem revenue_total_matches_day0_witness :
    (generateRevenueChartData 0 172800
        (prepareTransactions 172800
          [{ amount := some "10,50", credit := some 1,
             transaction_date := some 86400 }])).remaining_days.head? = some 0 ∧
    (generateRevenueChartData 0 172800
        (prepareTransactions 172800
          [{ amount := some "10,50", credit := some 1,
             transaction_date := some 86400 }])).revenue.head? =
      some (calcTotalRevenue (prepareTransactions 172800
        [{ amount := some "10,50", credit := some 1,
           transaction_date := some 86400 }])) :=
  revenue_total_matches_day0 0 172800
    [{ amount := some "10,50", credit := some 1, transaction_date := some 86400 }]
    (by decide) (by decide) (by with_unfolding_all decide)

/-- C5 counterexample: the normalizer maps the non-parseable amount "abc" to
a missing value (pandas NaN, here `none`), not to the numeric value 0.0; the
difference is observable in the ticket price, where a NaN amount is excluded
from the mean (0.0 would have produced 5 below, the code produces 10). -/
theorem amount_nonparseable_cex :
    ((prepareTransactions 0
        [{ amount := some "abc", credit := some 1, transaction_date := some 0 }]).map
      (fun t => t.amount_float)) = [none] ∧
    ([none] : List (Option ℚ)) ≠ [some 0] ∧
    calcTicketPrice (prepareTransactions 0
      [{ amount := some "abc", credit := some 1, transaction_date := some 0 },
       { amount := some "10,00", credit := some 1, transaction_date := some 0 }])
      = some 10 :=
  ⟨by with_unfolding_all decide, by with_unfolding_all decide,
   by with_unfolding_all decide⟩

/-- C5 amended: the normalizer never raises — rows missing the amount, the
credit flag or the date are dropped by `dropna`; a parseable amount (with `,`
as decimal separator) is signed as `amount` under `credit = 1` and `-amount`
under `credit = 0`; a non-parseable amount becomes a missing (NaN) value that
contributes nothing to `totalRevenue`, rather than the numeric 0.0. -/
theorem prepare_transactions_normalization (start dt : Int) (c : Int)
    (rest : List RawTx) (a1 a2 : String) (q : ℚ)
    (h1 : amountFloat a1 = some q) (h2 : amountFloat a2 = none) :
    ((prepareTransactions start [RawTx.mk (some a1) (some 1) (some dt)]).map
        (fun t => t.signed_amount) = [some q]) ∧
    ((prepareTransactions start [RawTx.mk (some a1) (some 0) (some dt)]).map
        (fun t => t.signed_amount) = [some (-q)]) ∧
    (calcTotalRevenue (prepareTransactions start
        (RawTx.mk (some a2) (some c) (some dt) :: rest)) =
      calcTotalRevenue (prepareTransactions start rest)) ∧
    (prepareTransactions start (RawTx.mk none (some c) (some dt) :: rest) =
      prepareTransactions start rest) ∧
    (prepareTransactions start (RawTx.mk (some a1) none (some dt) :: rest) =
      prepareTransactions start rest) ∧
    (prepareTransactions start (RawTx.mk (some a1) (some c) none :: rest) =
      prepareTransactions start rest) := by
  refine ⟨?_, ?_, ?_, rfl, rfl, rfl⟩
  · simp [prepareTransactions, h1, creditMultiplier]
  · simp [prepareTransactions, h1, creditMultiplier]
  · simp [prepareTransactions, calcTotalRevenue, h2]

/-- Witness for C5 (amended) on "10,50" (parseable) and "abc" (not). -/
theorem prepare_transactions_normalization_witness :
    ((prepareTransactions 0 [RawTx.mk (some "10,50") (some 1) (some 0)]).map
        (fun t => t.signed_amount) = [some (21/2)]) ∧
    ((prepareTransactions 0 [RawTx.mk (some "10,50") (some 0) (some 0)]).map
        (fun t => t.signed_amount) = [some (-(21/2))]) ∧
    (calcTotalRevenue (prepareTransactions 0
        (RawTx.mk (some "abc") (some 1) (some 0) :: [])) =
      calcTotalRevenue (prepareTransactions 0 [])) ∧
    (prepareTransactions 0 (RawTx.mk none (some 1) (some 0) :: []) =
      prepareTransactions 0 []) ∧
    (prepareTransactions 0 (RawTx.mk (some "10,50") none (some 0) :: []) =
      prepareTransactions 0 []) ∧
    (prepareTransactions 0 (RawTx.mk (some "10,50") (some 1) none :: []) =
      prepareTransactions 0 []) :=
  prepare_transactions_normalization 0 0 1 [] "10,50" "abc" (21/2)
    (by with_unfolding_all decide) (by with_unfolding_all decide)

/-! ### Association-list lemmas for the dynamic-field distribution -/

theorem lookupKey_insertOrReplace_self {β : Type} :
    ∀ (l : List (String × β)) (k : String) (v : β),
      lookupKey (insertOrReplace l k v) k = some v
  | [], k, v => by simp [insertOrReplace, lookupKey]
  | p :: rest, k, v => by
      by_cases h : p.1 = k
      · simp [insertOrReplace, lookupKey, h]
      · simp only [insertOrReplace, lookupKey, if_neg h]
        exact lookupKey_insertOrReplace_self rest k v

theorem lookupKey_insertOrReplace_ne {β : Type} :
    ∀ (l : List (String × β)) (k k' : String) (v : β), k' ≠ k →
      lookupKey (insertOrReplace l k v) k' = lookupKey l k'
  | [], k, k', v, h => by
      have hk' : ¬k = k' := fun hc => h hc.symm
      simp only [insertOrReplace, lookupKey, if_neg hk']
  | p :: rest, k, k', v, h => by
      have hk' : ¬k = k' := fun hc => h hc.symm
      by_cases hp : p.1 = k
      · have hp' : ¬p.1 = k' := by rw [hp]; exact hk'
        simp only [insertOrReplace, if_pos hp, lookupKey, if_neg hk', if_neg hp']
      · simp only [insertOrReplace, if_neg hp, lookupKey]
        by_cases hp' : p.1 = k'
        · simp [hp']
        · simp only [if_neg hp']
          exact lookupKey_insertOrReplace_ne rest k k' v h

theorem buildDist_lookup_not_mem (ex : List (String × String)) (total : ℕ) :
    ∀ (fields : List DynField) (acc : List (String × List (String × ℕ)))
      (lab : String), lab ∉ fields.map (fun f => f.label) →
      lookupKey (buildDist ex total fields acc) lab = lookupKey acc lab
  | [], acc, lab, _ => rfl
  | f :: rest, acc, lab, h => by
      simp only [List.map_cons, List.mem_cons, not_or] at h
      rw [buildDist]
      split
      · rw [buildDist_lookup_not_mem ex total rest _ lab h.2,
          lookupKey_insertOrReplace_ne _ _ _ _ h.1]
      · exact buildDist_lookup_not_mem ex total rest _ lab h.2

theorem buildDist_lookup (ex : List (String × String)) (total : ℕ) :
    ∀ (fields : List DynField) (acc : List (String × List (String × ℕ)))
      (f : DynField), f ∈ fields → (fields.map (fun g => g.label)).Nodup →
      lookupKey acc f.label = none →
      (lookupKey (buildDist ex total fields acc) f.label ≠ none ↔
        (1 < (fieldCounts ex (toString f.id) total).length ∧
          (fieldCounts ex (toString f.id) total).length ≤ 20))
  | [], _, f, hf, _, _ => absurd hf (List.not_mem_nil f)
  | g :: rest, acc, f, hf, hnd, hacc => by
      simp only [List.map_cons, List.nodup_cons] at hnd
      rcases List.mem_cons.mp hf with rfl | hf2
      · have hnotin : f.label ∉ rest.map (fun g => g.label) := hnd.1
        rw [buildDist]
        split
        · rename_i hcond
          rw [buildDist_lookup_not_mem ex total rest _ f.label hnotin,
            lookupKey_insertOrReplace_self]
          simpa using hcond
        · rename_i hcond
          rw [buildDist_lookup_not_mem ex total rest _ f.label hnotin, hacc]
          simpa using hcond
      · have hlabne : g.label ≠ f.label := by
          intro he
          exact hnd.1 (he ▸ List.mem_map.mpr ⟨f, hf2, rfl⟩)
        rw [buildDist]
        split
        · exact buildDist_lookup ex total rest _ f hf2 hnd.2
            (by rw [lookupKey_insertOrReplace_ne _ _ _ _ (Ne.symm hlabne)]; exact hacc)
        · exact buildDist_lookup ex total rest _ f hf2 hnd.2 hacc

/-- C6: a field's value distribution (with its synthetic `undefined` bucket)
appears in the distribution mapping exactly when the number of its distinct
values is strictly greater than 1 and at most 20, and every field — filtered
out or not — appears in the labels list.  (Stated for fields with pairwise
distinct labels, the distribution being keyed by label.) -/
theorem dynamic_field_distribution_filter (fields : List DynField)
    (serials : List (Option String)) (f : DynField) (hf : f ∈ fields)
    (hnd : (fields.map (fun g => g.label)).Nodup) :
    f.label ∈ (getDynamicFieldsDistribution fields serials).labels ∧
    (lookupKey (getDynamicFieldsDistribution fields serials).distribution f.label ≠ none ↔
      (1 < (fieldCounts (validExploded fields serials) (toString f.id)
          serials.length).length ∧
        (fieldCounts (validExploded fields serials) (toString f.id)
          serials.length).length ≤ 20)) := by
  have hfne : ¬fields.isEmpty := by
    cases fields with
    | nil => exact absurd hf (List.not_mem_nil f)
    | cons a l => simp
  unfold getDynamicFieldsDistribution
  rw [if_neg hfne]
  by_cases hs : serials.isEmpty
  · rw [if_pos hs]
    have hsnil : serials = [] := List.isEmpty_iff.mp hs
    subst hsnil
    constructor
    · exact List.mem_map.mpr ⟨f, hf, rfl⟩
    · have hzero : fieldCounts (validExploded fields []) (toString f.id) 0 = [] := by
        have hex : validExploded fields [] = [] := rfl
        rw [hex]
        rfl
      simp [lookupKey, hzero]
  · rw [if_neg hs]
    constructor
    · exact List.mem_map.mpr ⟨f, hf, rfl⟩
    · exact buildDist_lookup (validExploded fields serials) serials.length fields [] f hf
        hnd rfl

/-- Witness for C6: one field ("color") with two distinct observed answers
is chartable and listed. -/
theorem dynamic_field_distribution_filter_witness :
    "color" ∈ (getDynamicFieldsDistribution [DynField.mk 1 "color"]
      [some "1: red", some "1: blue"]).labels ∧
    (lookupKey (getDynamicFieldsDistribution [DynField.mk 1 "color"]
        [some "1: red", some "1: blue"]).distribution "color" ≠ none ↔
      (1 < (fieldCounts (validExploded [DynField.mk 1 "color"]
          [some "1: red", some "1: blue"]) (toString (1 : Int))
          [some "1: red", some "1: blue"].length).length ∧
        (fieldCounts (validExploded [DynField.mk 1 "color"]
          [some "1: red", some "1: blue"]) (toString (1 : Int))
          [some "1: red", some "1: blue"].length).length ≤ 20)) :=
  dynamic_field_distribution_filter [DynField.mk 1 "color"]
    [some "1: red", some "1: blue"] (DynField.mk 1 "color") (by decide) (by decide)

/-- C7 counterexample: a lookup of an event id that resolves nowhere returns
the normal zero-valued structures (no NotFound, no error), and an event
belonging to organization 999 is computed in full for a caller scoped to
organization 1 — the per-event queries never consult the org scope. -/
theorem facade_no_notfound_cex :
    getEventInscriptions 0 (Database.mk [] [] []) 5 = some (zeroInscriptions 5) ∧
    getEventRevenue 1 (Database.mk [] [] []) 5 = zeroRevenue 5 ∧
    (getEventRevenue 1 (Database.mk [EventRow.mk 5 999 "ev" 86400 0 10] []
        [(5, RawTx.mk (some "10,00") (some 1) (some 0))]) 5).totalRevenue = 10 ∧
    (∀ e ∈ [EventRow.mk 5 999 "ev" 86400 0 10], e.igreja_id ≠ 1) :=
  ⟨by with_unfolding_all decide, by with_unfolding_all decide,
   by with_unfolding_all decide, by with_unfolding_all decide⟩

/-- C7 amended: the facade never fails with NotFound: an event id without an
event row (and hence, in a referentially intact database, without
inscriptions) produces the same zero-valued structures as an existing event
with no records, for any organization scope. -/
theorem facade_unknown_event_zero (now orgId : Int) (db : Database) (eid : Int)
    (hev : getEventById db eid = []) (hins : getEventInscriptionRows db eid = []) :
    getEventInscriptions now db eid = some (zeroInscriptions eid) ∧
    getEventRevenue orgId db eid = zeroRevenue eid := by
  constructor
  · simp [getEventInscriptions, hins]
  · simp [getEventRevenue, hev]

/-- Witness for C7 (amended): the empty database at event id 5. -/
theorem facade_unknown_event_zero_witness :
    getEventInscriptions 0 (Database.mk [] [] []) 7 = some (zeroInscriptions 7) ∧
    getEventRevenue 1 (Database.mk [] [] []) 7 = zeroRevenue 7 :=
  facade_unknown_event_zero 0 1 (Database.mk [] [] []) 7 rfl rfl

/-- C9: an event whose inscription and transaction record sets are empty
yields empty series (`{remaining_days: [], values: []}`) and all-zero scalar
KPIs from both per-event queries, never an exception. -/
theorem empty_records_zero_views (now orgId : Int) (db : Database) (eid : Int)
    (hins : getEventInscriptionRows db eid = [])
    (htx : getEventTransactionRows db eid = []) :
    getEventInscriptions now db eid =
      some (EventInscriptions.mk (toString eid) (InscriptionsChart.mk [] []) 0 0 0) ∧
    getEventRevenue orgId db eid =
      EventRevenue.mk (toString eid) (RevenueChart.mk [] []) (some 0) 0 := by
  constructor
  · simp [getEventInscriptions, hins, zeroInscriptions]
  · cases hE : getEventById db eid with
    | nil => simp [getEventRevenue, hE, htx, zeroRevenue]
    | cons e es => simp [getEventRevenue, hE, htx, zeroRevenue]

/-- Witness for C9: a database holding one event with no records. -/
theorem empty_records_zero_views_witness :
    getEventInscriptions 0
        (Database.mk [EventRow.mk 5 1 "ev" 86400 0 10] [] []) 5 =
      some (EventInscriptions.mk (toString (5 : Int)) (InscriptionsChart.mk [] []) 0 0 0) ∧
    getEventRevenue 1 (Database.mk [EventRow.mk 5 1 "ev" 86400 0 10] [] []) 5 =
      EventRevenue.mk (toString (5 : Int)) (RevenueChart.mk [] []) (some 0) 0 :=
  empty_records_zero_views 0 1 (Database.mk [EventRow.mk 5 1 "ev" 86400 0 10] [] []) 5
    rfl rfl

/-! ### Token split lemmas -/

theorem takeWhile_no_dot (key : List Char) :
    ∀ (pay : List Char), '.' ∉ pay →
      (pay ++ '.' :: key).takeWhile (fun c => c ≠ '.') = pay
  | [], _ => by simp [List.takeWhile_cons]
  | c :: cs, h => by
      simp only [List.mem_cons, not_or] at h
      simp only [List.cons_append, List.takeWhile_cons, decide_eq_true_eq]
      rw [if_pos (show c ≠ '.' from fun hc => h.1 hc.symm), takeWhile_no_dot key cs h.2]

theorem dropWhile_no_dot (key : List Char) :
    ∀ (pay : List Char), '.' ∉ pay →
      (pay ++ '.' :: key).dropWhile (fun c => c ≠ '.') = '.' :: key
  | [], _ => by simp [List.dropWhile_cons]
  | c :: cs, h => by
      simp only [List.mem_cons, not_or] at h
      simp only [List.cons_append, List.dropWhile_cons, decide_eq_true_eq]
      rw [if_pos (show c ≠ '.' from fun hc => h.1 hc.symm), dropWhile_no_dot key cs h.2]

theorem splitAtFirstDot_append (pay key : List Char) (h : '.' ∉ pay) :
    splitAtFirstDot (pay ++ '.' :: key) = (pay, key) := by
  unfold splitAtFirstDot
  rw [takeWhile_no_dot key pay h, dropWhile_no_dot key pay h]
  rfl

/-- C10: a token containing no `'.'` separator is returned unchanged by
`decrypt` — a caller passing a plain organization id has it used directly. -/
theorem decrypt_no_dot_passthrough (P : CryptoPrims) (token : String)
    (h : '.' ∉ token.data) :
    decrypt P token = Except.ok token := by
  unfold decrypt
  rw [if_neg h]

/-- Witness for C10: the plain string "12345" passes straight through. -/
theorem decrypt_no_dot_passthrough_witness :
    decrypt trivialPrims "12345" = Except.ok "12345" :=
  decrypt_no_dot_passthrough trivialPrims "12345" (by decide)

/-- C8 counterexample: the payload part "ab!c" holds a non-base64 character,
so `base64.b64decode` receives 3 usable characters after discarding it while
the padding computed on the raw length is empty — `decrypt` propagates the
resulting `binascii.Error` instead of returning the sentinel `""`. -/
theorem decrypt_malformed_base64_cex :
    decrypt trivialPrims "ab!c.AAAA" = Except.error DecryptError.badBase64 := rfl

/-- C8 amended: `decrypt` swallows a failure and returns the empty sentinel
only at the final `ast.literal_eval` stage: when both base64 parts decode,
the key loads, RSA/OAEP succeeds, the AES key, IV and ciphertext lengths are
acceptable and the plaintext decodes as UTF-8, but the payload fails to parse
as a structure holding `org_id`, the result is `""`.  Failures of any earlier
stage surface as exceptions (see the counterexample for base64). -/
theorem decrypt_silent_only_at_parse (P : CryptoPrims) (pay key : List Char)
    (combined keyBytes aesKey : List ℕ) (s : String)
    (hdot : '.' ∉ pay)
    (hpay : b64urlDecode pay = Except.ok combined)
    (hkey : b64urlDecode key = Except.ok keyBytes)
    (hload : P.loadKeyOk keyBytes = true)
    (hrsa : P.rsaDecrypt keyBytes (combined.take 256) = some aesKey)
    (hlen : aesKey.length = 16 ∨ aesKey.length = 24 ∨ aesKey.length = 32)
    (hiv : ((combined.drop 256).take 16).length = 16)
    (hct : (combined.drop 272).length % 16 = 0)
    (hutf : P.utf8Decode (unpadPkcs7
      (P.aesCbcDecrypt aesKey ((combined.drop 256).take 16) (combined.drop 272))) = some s)
    (hparse : P.literalEvalOrgId s = none) :
    decrypt P (String.mk (pay ++ '.' :: key)) = Except.ok "" := by
  have hmem : '.' ∈ (String.mk (pay ++ '.' :: key)).data := by
    show '.' ∈ pay ++ '.' :: key
    simp
  have hlenb : (aesKey.length = 16 || aesKey.length = 24 || aesKey.length = 32) = true := by
    rcases hlen with h | h | h <;> simp [h]
  unfold decrypt
  rw [if_pos hmem,
    show (String.mk (pay ++ '.' :: key)).data = pay ++ '.' :: key from rfl,
    splitAtFirstDot_append pay key hdot]
  simp only [hpay, hkey, hload, hrsa, hutf, hparse, hlenb, Bool.not_true, Bool.false_eq_true,
    if_false, if_neg, hiv, hct]
  simp [hiv, hct]

set_option maxRecDepth 100000 in
/-- Witness for C8 (amended): a well-formed 272-zero-byte payload and a
zero-key part, with primitives that succeed everywhere and a payload parse
that fails, yield the silent `""`. -/
theorem decrypt_silent_only_at_parse_witness :
    decrypt trivialPrims (String.mk (witPayload ++ '.' :: witKey)) = Except.ok "" :=
  decrypt_silent_only_at_parse trivialPrims witPayload witKey
    (List.replicate 272 0) [0, 0, 0] (List.replicate 32 0) ""
    (by decide) (by rfl) (by rfl) rfl rfl
    (Or.inr (Or.inr (by decide))) (by decide) (by decide) (by rfl) rfl
